import Mathlib

/-!
Verification of the `SelectionOrderedSet` component (src/selection-ordered-set,
bundled in this repository next to the dock sources).

The JavaScript class is shallowly embedded below.  Entries are values of an
arbitrary type with decidable equality (JS `===` identity on the opaque,
caller-supplied entry values).  JS numbers used as indices are modelled as
`Int` (they can be negative, e.g. `selectedIndex = -1`).  Mutations run to
completion synchronously; each operation is modelled as a function from the
pre state to an `Outcome`: the post state, the chronological list of emitted
events (plus the `console.warn` reentrancy diagnostic, recorded as `Ev.warn`),
and the exception, if one propagated out of the call (`Error` /
`AssertionError` in the source).  Because JS exceptions do not roll back the
mutations already performed on `this`, a failing call still returns the state
it left behind.
-/

namespace SelSet

/-- Exceptions thrown by the source, as an enumeration.  `assertionFailed` is
the `AssertionError` of `invariant(...)` (Node `assert`). -/
inductive Err where
  | assertionFailed
  | invalidSelectionIndex
  | entryNotInSet
  | initialSelectionRequired
  | invalidSelectedEntryIndex
  | fuelExhausted
deriving DecidableEq, Repr

/-- Observable actions, in chronological order.  The five `did-*` events of the
emitter; `warn` is the `console.warn` reentrancy diagnostic; `entryDestroyed e`
records the call `entry.destroy()` performed by `destroyEntries` on entries
exposing that capability.  `didRemoveEntry` carries `this.entries[index]`,
which is `undefined` (here `none`) when `index` is out of range. -/
inductive Ev (α : Type) where
  | didAddEntry (entry : α) (index : Int)
  | didRemoveEntry (entry : Option α) (index : Int)
  | didChangeEntries (snapshot : List α)
  | didChangeSelectedEntry (entry : Option α)
  | didDestroy
  | warn
  | entryDestroyed (entry : α)
deriving DecidableEq, Repr

/-- The mutable fields of a `SelectionOrderedSet`.  `alive` is `none` while the
JS field is `undefined` (the constructor never assigns it); `destroy()` sets it
to `some false`.  `emitting` is JS-falsy (`undefined`) at construction,
modelled as `false`. -/
structure SOSet (α : Type) where
  entries : List α
  selectedIndex : Int
  transactionDepth : Nat
  currentTransactionChangedEntries : Bool
  emitting : Bool
  alive : Option Bool
deriving DecidableEq, Repr

/-- Result of running one JS call: final state, chronological trace, and the
exception that propagated to the caller, if any. -/
structure Outcome (α : Type) where
  state : SOSet α
  trace : List (Ev α)
  error : Option Err
deriving DecidableEq, Repr

/-- JS truthiness of a possibly-`undefined` boolean field. -/
def jsTruthy : Option Bool → Bool
  | none => false
  | some b => b

/-- JS array indexing `a[i]`: `undefined` (`none`) off either end. -/
def jsGetElem (l : List α) (i : Int) : Option α :=
  if 0 ≤ i then l[i.toNat]? else none

/-- The index at which `Array.prototype.splice(start, ...)` operates: negative
starts count from the end and are clamped to `0`, non-negative starts are
clamped to the length. -/
def jsSpliceStart (len : Nat) (i : Int) : Nat :=
  if i < 0 then ((len : Int) + i).toNat else min i.toNat len

/-- Source `a.splice(i, 0, e)`: insert `e` at the clamped start index. -/
def jsSpliceInsert (l : List α) (i : Int) (e : α) : List α :=
  let k := jsSpliceStart l.length i
  l.take k ++ e :: l.drop k

/-- Source `a.splice(i, 1)`: delete one element at the clamped start index (no
element is deleted when the start lands at the end of the array). -/
def jsSpliceRemoveOne (l : List α) (i : Int) : List α :=
  let k := jsSpliceStart l.length i
  l.take k ++ l.drop (k + 1)

/-- Source `Array.prototype.indexOf`: index of the first occurrence, or `-1`. -/
def jsIndexOf [DecidableEq α] (e : α) : List α → Int
  | [] => -1
  | x :: xs =>
    if x = e then 0
    else
      let r := jsIndexOf e xs
      if r = -1 then -1 else r + 1

/-- JS `%` is the remainder with the sign of the dividend (`Int.tmod`). -/
def jsMod (a b : Int) : Int := Int.tmod a b

/-- Source `getSize()`. -/
def getSize (s : SOSet α) : Nat := s.entries.length

/-- Source `getEntries()` (returns a copy; copies are values here). -/
def getEntries (s : SOSet α) : List α := s.entries

/-- Source `getSelectedIndex()`. -/
def getSelectedIndex (s : SOSet α) : Int := s.selectedIndex

/-- Source `getSelectedEntry()`, i.e. `this.entries[this.selectedIndex]`. -/
def getSelectedEntry (s : SOSet α) : Option α := jsGetElem s.entries s.selectedIndex

/-- Source `includes(entry)`. -/
def includes [DecidableEq α] (s : SOSet α) (e : α) : Bool := decide (e ∈ s.entries)

/-- Source `indexOf(entry)`. -/
def indexOf [DecidableEq α] (s : SOSet α) (e : α) : Int := jsIndexOf e s.entries

/-- Source `isAlive()` returns `this.alive` (a JS value used as a boolean). -/
def isAlive (s : SOSet α) : Bool := jsTruthy s.alive

/-- Source `isDestroyed()` is `!this.isAlive()`. -/
def isDestroyed (s : SOSet α) : Bool := !isAlive s

/-- The constructor.  `entries` defaults to `[]`, `selectedIndex` to `0` on a
non-empty list and `-1` on an empty one; an explicit `selectedIndex` is
rejected when it is `-1` on a non-empty list or `≥ entries.length`.  The
per-entry `onDidDestroy` subscriptions installed via `usingEachEntry` emit no
events and are not part of the modelled state. -/
def construct (entries : List α) (selectedIndex : Option Int) :
    Except Err (SOSet α) :=
  match selectedIndex with
  | none =>
    .ok { entries := entries
          selectedIndex := if entries.length = 0 then -1 else 0
          transactionDepth := 0
          currentTransactionChangedEntries := false
          emitting := false
          alive := none }
  | some i =>
    if i = -1 ∧ entries.length ≠ 0 then .error .initialSelectionRequired
    else if (entries.length : Int) ≤ i then .error .invalidSelectedEntryIndex
    else
      .ok { entries := entries
            selectedIndex := i
            transactionDepth := 0
            currentTransactionChangedEntries := false
            emitting := false
            alive := none }

/-- Source `emit(...)`: sets `this.emitting = true`, dispatches through the emitter,
then resets `this.emitting = false`.  In this base model no listener mutates
the set, so dispatching only records the event (a listener-aware model used
for the reentrancy analysis appears further below). -/
def emit (s : SOSet α) (ev : Ev α) : SOSet α × List (Ev α) :=
  ({ s with emitting := false }, [ev])

/-- Source `didAddEntry(entry, index)`: marks the transaction dirty flag and emits. -/
def didAddEntry (s : SOSet α) (e : α) (i : Int) : SOSet α × List (Ev α) :=
  emit { s with currentTransactionChangedEntries := true } (.didAddEntry e i)

/-- Source `didRemoveEntry(entry, index)`: marks the dirty flag and emits. -/
def didRemoveEntry (s : SOSet α) (e : Option α) (i : Int) : SOSet α × List (Ev α) :=
  emit { s with currentTransactionChangedEntries := true } (.didRemoveEntry e i)

/-- The tail of `transact(fn)` after `fn` has run, given the selected entry
recorded on entry.  On an exception the `this.transactionDepth--` line is
never reached (there is no `try`/`finally` in the source), so the incremented
depth is kept.  Otherwise the depth is decremented; if it is back to zero the
batched `did-change-entries` (when the dirty flag is set, which is then
cleared) and `did-change-selected-entry` (when the selected entry changed by
identity) events fire. -/
def finishTransact [DecidableEq α] (prevSelectedEntry : Option α) (o : Outcome α) : Outcome α :=
  match o.error with
  | some e => ⟨o.state, o.trace, some e⟩
  | none =>
    let s2 : SOSet α := { o.state with transactionDepth := o.state.transactionDepth - 1 }
    if s2.transactionDepth ≠ 0 then ⟨s2, o.trace, none⟩
    else
      let r1 : SOSet α × List (Ev α) :=
        if s2.currentTransactionChangedEntries then
          emit { s2 with currentTransactionChangedEntries := false }
            (.didChangeEntries (getEntries s2))
        else (s2, [])
      let sel := getSelectedEntry r1.1
      if sel ≠ prevSelectedEntry then
        let r2 := emit r1.1 (.didChangeSelectedEntry sel)
        ⟨r2.1, o.trace ++ r1.2 ++ r2.2, none⟩
      else ⟨r1.1, o.trace ++ r1.2, none⟩

/-- Source `transact(fn)`: warn if called while `emitting` is truthy, record the
previously selected entry, bump the depth, run the body, then finish. -/
def transact [DecidableEq α] (s : SOSet α) (fn : SOSet α → Outcome α) : Outcome α :=
  let warnTr : List (Ev α) := if s.emitting then [Ev.warn] else []
  let o := fn { s with transactionDepth := s.transactionDepth + 1 }
  let r := finishTransact (getSelectedEntry s) o
  ⟨r.state, warnTr ++ r.trace, r.error⟩

/-- The body of `addAt(entry, index)`: `invariant(!this.includes(entry))`,
`invariant(index <= this.getSize())` (note: no lower bound), splice the entry
in, bump `selectedIndex` when `index ≤ selectedIndex`, fire `didAddEntry`. -/
def addAtBody [DecidableEq α] (e : α) (i : Int) (s : SOSet α) : Outcome α :=
  if includes s e then ⟨s, [], some .assertionFailed⟩
  else if ¬ i ≤ (getSize s : Int) then ⟨s, [], some .assertionFailed⟩
  else
    let s1 := { s with entries := jsSpliceInsert s.entries i e }
    let s2 := if i ≤ s1.selectedIndex
      then { s1 with selectedIndex := s1.selectedIndex + 1 } else s1
    let r := didAddEntry s2 e i
    ⟨r.1, r.2, none⟩

/-- Source `addAt(entry, index)`. -/
def addAt [DecidableEq α] (s : SOSet α) (e : α) (i : Int) : Outcome α :=
  transact s (addAtBody e i)

/-- Source `add(entry)` is `addAt(entry, this.getSize())`. -/
def add [DecidableEq α] (s : SOSet α) (e : α) : Outcome α :=
  addAt s e (getSize s : Int)

/-- The body of `removeAt(index)` (the source performs no bounds check):
read `this.entries[index]`, splice one element out, rebalance the selection,
fire `didRemoveEntry`. -/
def removeAtBody [DecidableEq α] (i : Int) (s : SOSet α) : Outcome α :=
  let entry := jsGetElem s.entries i
  let s1 := { s with entries := jsSpliceRemoveOne s.entries i }
  let size := getSize s1
  let s2 :=
    if size = 0 then { s1 with selectedIndex := -1 }
    else if i < s1.selectedIndex then
      { s1 with selectedIndex := max 0 (s1.selectedIndex - 1) }
    else
      { s1 with selectedIndex := min s1.selectedIndex ((size : Int) - 1) }
  let r := didRemoveEntry s2 entry i
  ⟨r.1, r.2, none⟩

/-- Source `removeAt(index)`. -/
def removeAt [DecidableEq α] (s : SOSet α) (i : Int) : Outcome α :=
  transact s (removeAtBody i)

/-- Source `remove(entry)`: a silent no-op when the entry is absent. -/
def remove [DecidableEq α] (s : SOSet α) (e : α) : Outcome α :=
  let i := indexOf s e
  if i = -1 then ⟨s, [], none⟩ else removeAt s i

/-- The body of `selectAt(index)`: selecting the current index returns before
the bounds check; otherwise out-of-range indices throw. -/
def selectAtBody [DecidableEq α] (i : Int) (s : SOSet α) : Outcome α :=
  if i = s.selectedIndex then ⟨s, [], none⟩
  else if i < 0 ∨ (getSize s : Int) ≤ i then ⟨s, [], some .invalidSelectionIndex⟩
  else ⟨{ s with selectedIndex := i }, [], none⟩

/-- Source `selectAt(index)`. -/
def selectAt [DecidableEq α] (s : SOSet α) (i : Int) : Outcome α :=
  transact s (selectAtBody i)

/-- Source `select(entry)`: throws (outside any transaction) when absent. -/
def select [DecidableEq α] (s : SOSet α) (e : α) : Outcome α :=
  let i := indexOf s e
  if i = -1 then ⟨s, [], some .entryNotInSet⟩ else selectAt s i

/-- Source `selectNext()`: no-op on an empty set, else `selectAt((selectedIndex + 1)
% size)`. -/
def selectNext [DecidableEq α] (s : SOSet α) : Outcome α :=
  if getSize s = 0 then ⟨s, [], none⟩
  else selectAt s (jsMod (s.selectedIndex + 1) (getSize s : Int))

/-- Source `selectPrevious()`: no-op on an empty set, else `selectAt((selectedIndex -
1 + size) % size)`. -/
def selectPrevious [DecidableEq α] (s : SOSet α) : Outcome α :=
  if getSize s = 0 then ⟨s, [], none⟩
  else selectAt s (jsMod (s.selectedIndex - 1 + (getSize s : Int)) (getSize s : Int))

end SelSet

namespace SelSet

/-- Source `destroyEntry(entry)` calls `entry.destroy()` when the entry exposes that
capability; `hasDestroy` models the `typeof entry.destroy === 'function'`
test and the call is recorded as an `entryDestroyed` trace action. -/
def destroyEntryTrace (hasDestroy : α → Bool) (e : α) : List (Ev α) :=
  if hasDestroy e then [Ev.entryDestroyed e] else []

/-- The `forEach` body of `destroyEntries()`, iterating over the snapshot
taken when the transaction body starts: check membership (throwing stops the
iteration and propagates), destroy the entry, then `this.remove(entry)`. -/
def destroyEntriesLoop [DecidableEq α] (hasDestroy : α → Bool) :
    List α → SOSet α → Outcome α
  | [], s => ⟨s, [], none⟩
  | e :: rest, s =>
    if ¬ includes s e then ⟨s, [], some .entryNotInSet⟩
    else
      let dtr := destroyEntryTrace hasDestroy e
      let o := remove s e
      match o.error with
      | some err => ⟨o.state, dtr ++ o.trace, some err⟩
      | none =>
        let o2 := destroyEntriesLoop hasDestroy rest o.state
        ⟨o2.state, dtr ++ o.trace ++ o2.trace, o2.error⟩

/-- Source `destroyEntries()`: one transaction around the per-entry loop. -/
def destroyEntries [DecidableEq α] (hasDestroy : α → Bool) (s : SOSet α) : Outcome α :=
  transact s (fun s1 => destroyEntriesLoop hasDestroy (getEntries s1) s1)

/-- Source `destroy()`: dispose the entry subscriptions (no observable trace),
destroy and remove every entry, set `alive = false`, fire `did-destroy`,
dispose the emitter (no observable trace). -/
def destroy [DecidableEq α] (hasDestroy : α → Bool) (s : SOSet α) : Outcome α :=
  let o := destroyEntries hasDestroy s
  match o.error with
  | some err => ⟨o.state, o.trace, some err⟩
  | none =>
    let r := emit { o.state with alive := some false } Ev.didDestroy
    ⟨r.1, o.trace ++ r.2, none⟩

/- Deep embedding of the client-visible mutation calls, so that the claims
about arbitrary call sequences and transaction bodies can quantify over
programs. -/
mutual
/-- A single client-visible mutation call; `transact body` is a caller-driven
transaction running the body operations in order (stopping at the first
exception, which propagates). -/
inductive Op (α : Type) where
  | add (e : α)
  | addAt (e : α) (i : Int)
  | remove (e : α)
  | removeAt (i : Int)
  | select (e : α)
  | selectAt (i : Int)
  | selectNext
  | selectPrevious
  | transact (body : Prog α)

/-- A sequence of calls (a transaction body). -/
inductive Prog (α : Type) where
  | nil
  | cons (op : Op α) (rest : Prog α)
end

mutual
/-- Interpreter for a single call. -/
def runOp [DecidableEq α] : Op α → SOSet α → Outcome α
  | .add e, s => add s e
  | .addAt e i, s => addAt s e i
  | .remove e, s => remove s e
  | .removeAt i, s => removeAt s i
  | .select e, s => select s e
  | .selectAt i, s => selectAt s i
  | .selectNext, s => selectNext s
  | .selectPrevious, s => selectPrevious s
  | .transact body, s =>
    let warnTr : List (Ev α) := if s.emitting then [Ev.warn] else []
    let o := runProg body { s with transactionDepth := s.transactionDepth + 1 }
    let r := finishTransact (getSelectedEntry s) o
    ⟨r.state, warnTr ++ r.trace, r.error⟩

/-- Interpreter for a sequence of calls; an exception aborts the rest. -/
def runProg [DecidableEq α] : Prog α → SOSet α → Outcome α
  | .nil, s => ⟨s, [], none⟩
  | .cons op rest, s =>
    let o := runOp op s
    match o.error with
    | some _ => o
    | none =>
      let o2 := runProg rest o.state
      ⟨o2.state, o.trace ++ o2.trace, o2.error⟩
end

/-- Bulk (deferred, batched) events, as opposed to the immediate per-mutation
events, the reentrancy warning and the destruction actions. -/
def isBulk : Ev α → Bool
  | .didChangeEntries _ => true
  | .didChangeSelectedEntry _ => true
  | _ => false

/-- Whether a call reaches the `transact` wrapper (and hence its reentrancy
check): `remove` of an absent entry returns before it, `select` of an absent
entry throws before it, and `selectNext`/`selectPrevious` return early on an
empty set. -/
def entersTransact [DecidableEq α] : Op α → SOSet α → Bool
  | .add _, _ => true
  | .addAt _ _, _ => true
  | .remove e, s => indexOf s e ≠ -1
  | .removeAt _, _ => true
  | .select e, s => indexOf s e ≠ -1
  | .selectAt _, _ => true
  | .selectNext, s => getSize s ≠ 0
  | .selectPrevious, s => getSize s ≠ 0
  | .transact _, _ => true

end SelSet

namespace SelSet

/- A listener-aware instantiation of the same code, used to analyse reentrant
mutation.  A single `did-add-entry` style listener is modelled as a function
from the dispatched event to the list of entries the listener adds (via
`add`) in response; `[]` means the listener does nothing for that event.
`emit` dispatches the event to the listener while `this.emitting` is true and
then unconditionally resets the flag, exactly as in the source.  The `fuel`
argument is an artifact of totality only: it bounds the dispatch depth, and
every concrete scenario below is run with more fuel than it consumes (the
`fuelExhausted` outcome never arises there). -/

/-- What the single subscribed listener does with a dispatched event: the
entries it adds to the set, in order. -/
def Listener : Type := Ev Nat → List Nat

mutual
/-- Source `emit(...)` with the listener dispatched: set `emitting`, run the
listener, reset `emitting` (skipped if the listener throws, as in JS). -/
def emitL (L : Listener) : Nat → SOSet Nat → Ev Nat → Outcome Nat
  | 0, s, ev => ⟨s, [ev], some .fuelExhausted⟩
  | fuel + 1, s, ev =>
    let o := runAddsL L fuel (L ev) { s with emitting := true }
    match o.error with
    | some err => ⟨o.state, ev :: o.trace, some err⟩
    | none => ⟨{ o.state with emitting := false }, ev :: o.trace, none⟩
termination_by fuel _ _ => (fuel, 0, 0)

/-- The listener body: perform `set.add(e)` for each entry in order. -/
def runAddsL (L : Listener) : Nat → List Nat → SOSet Nat → Outcome Nat
  | _, [], s => ⟨s, [], none⟩
  | fuel, e :: rest, s =>
    let o := addL L fuel e s
    match o.error with
    | some _ => o
    | none =>
      let o2 := runAddsL L fuel rest o.state
      ⟨o2.state, o.trace ++ o2.trace, o2.error⟩
termination_by fuel l _ => (fuel, 3, l.length)

/-- Source `add(entry)` in the listener-aware model. -/
def addL (L : Listener) (fuel : Nat) (e : Nat) (s : SOSet Nat) : Outcome Nat :=
  addAtL L fuel e (getSize s : Int) s
termination_by (fuel, 2, 0)

/-- Source `addAt(entry, index)` in the listener-aware model: the same `transact`
wrapper and body as `addAt` above, with each `emit` dispatching to `L`. -/
def addAtL (L : Listener) (fuel : Nat) (e : Nat) (i : Int) (s : SOSet Nat) :
    Outcome Nat :=
  let warnTr : List (Ev Nat) := if s.emitting then [Ev.warn] else []
  let prev := getSelectedEntry s
  let s1 : SOSet Nat := { s with transactionDepth := s.transactionDepth + 1 }
  let ob : Outcome Nat :=
    if includes s1 e then ⟨s1, [], some .assertionFailed⟩
    else if ¬ i ≤ (getSize s1 : Int) then ⟨s1, [], some .assertionFailed⟩
    else
      let s2 := { s1 with entries := jsSpliceInsert s1.entries i e }
      let s3 := if i ≤ s2.selectedIndex
        then { s2 with selectedIndex := s2.selectedIndex + 1 } else s2
      emitL L fuel { s3 with currentTransactionChangedEntries := true }
        (.didAddEntry e i)
  match ob.error with
  | some err => ⟨ob.state, warnTr ++ ob.trace, some err⟩
  | none =>
    let s4 : SOSet Nat := { ob.state with transactionDepth := ob.state.transactionDepth - 1 }
    if s4.transactionDepth ≠ 0 then ⟨s4, warnTr ++ ob.trace, none⟩
    else
      let r1 : Outcome Nat :=
        if s4.currentTransactionChangedEntries then
          emitL L fuel { s4 with currentTransactionChangedEntries := false }
            (.didChangeEntries (getEntries s4))
        else ⟨s4, [], none⟩
      match r1.error with
      | some err => ⟨r1.state, warnTr ++ ob.trace ++ r1.trace, some err⟩
      | none =>
        let sel := getSelectedEntry r1.state
        if sel ≠ prev then
          let r2 := emitL L fuel r1.state (.didChangeSelectedEntry sel)
          ⟨r2.state, warnTr ++ ob.trace ++ r1.trace ++ r2.trace, r2.error⟩
        else ⟨r1.state, warnTr ++ ob.trace ++ r1.trace, none⟩
termination_by (fuel, 1, 0)
end

/-- The reentrant listener of the analysed scenario: when entry `0` is added,
the listener reacts by adding `1` and then `2` (two mutations from inside one
event-handler invocation); it ignores every other event. -/
def reentrantListener : Listener
  | .didAddEntry 0 _ => [1, 2]
  | _ => []

/-- The scenario: a fresh empty set with the reentrant listener subscribed,
then `add(0)`. -/
def reentrantRun : Outcome Nat :=
  addL reentrantListener 9 0 ⟨[], -1, 0, false, false, none⟩

end SelSet

namespace SelSet

/-! ## Helper lemmas -/

/-- The `transact` constructor of `Op` runs the generic `transact` of the
source on the interpreted body. -/
theorem runOp_transact [DecidableEq α] (body : Prog α) (s : SOSet α) :
    runOp (Op.transact body) s = transact s (runProg body) := rfl

/-- Lemma: `transact` propagates exactly the exception of its body. -/
theorem transact_error [DecidableEq α] (s : SOSet α) (fn : SOSet α → Outcome α) :
    (transact s fn).error =
      (fn { s with transactionDepth := s.transactionDepth + 1 }).error := by
  cases herr : (fn { s with transactionDepth := s.transactionDepth + 1 }).error with
  | some e => simp [transact, finishTransact, herr]
  | none =>
    simp only [transact, finishTransact, herr]
    split
    · rfl
    · split <;> split <;> simp [emit]

/-! ## Claim theorems -/

/-- C1: the claimed invariant `size() == 0 ⟺ selectedIndex() == -1` (and the
validity of the selection on non-empty sets) is broken by the code on the
very first reachable state the claim singles out: constructing an empty set
and calling `add` leaves one entry but `selectedIndex` still `-1` (the
`index <= this.selectedIndex` test in `addAt` is false for `0 <= -1`, so the
selection is never initialised), hence no entry is selected while the set is
non-empty, contradicting the claim and the class's own doc comment. -/
theorem c1_add_to_empty_breaks_invariant :
    construct ([] : List Nat) none = .ok ⟨[], -1, 0, false, false, none⟩ ∧
    (add (⟨[], -1, 0, false, false, none⟩ : SOSet Nat) 7).error = none ∧
    (add (⟨[], -1, 0, false, false, none⟩ : SOSet Nat) 7).state.entries = [7] ∧
    (add (⟨[], -1, 0, false, false, none⟩ : SOSet Nat) 7).state.selectedIndex = -1 ∧
    getSelectedEntry ((add (⟨[], -1, 0, false, false, none⟩ : SOSet Nat) 7).state) = none := by
  refine ⟨rfl, ?_, ?_, ?_, ?_⟩ <;> decide

/-- C7: a freshly constructed set already reports `isAlive() = false` (JS
`undefined`, falsy) and `isDestroyed() = true`, because the constructor never
assigns `this.alive = true`; the claim requires `true`/`false` before
`destroy()`.  After `destroy()` the pair is `false`/`true` as claimed. -/
theorem c7_fresh_set_reports_destroyed :
    construct ([1, 2] : List Nat) none = .ok ⟨[1, 2], 0, 0, false, false, none⟩ ∧
    isAlive (⟨[1, 2], 0, 0, false, false, none⟩ : SOSet Nat) = false ∧
    isDestroyed (⟨[1, 2], 0, 0, false, false, none⟩ : SOSet Nat) = true ∧
    isAlive ((destroy (fun _ => false) (⟨[1, 2], 0, 0, false, false, none⟩ : SOSet Nat)).state) = false ∧
    isDestroyed ((destroy (fun _ => false) (⟨[1, 2], 0, 0, false, false, none⟩ : SOSet Nat)).state) = true := by
  refine ⟨rfl, ?_, ?_, ?_, ?_⟩ <;> decide

/-- C8: the constructor accepts `selectedIndex = -2` on a non-empty entries
list (its validation only rejects `selectedIndex === -1` and
`selectedIndex >= entries.length`), where the claim requires an error for
every index below `-1`; the resulting set is non-empty with no selected
entry, contradicting the class's own doc comment. -/
theorem c8_constructor_accepts_minus_two :
    construct ([1] : List Nat) (some (-2)) = .ok ⟨[1], -2, 0, false, false, none⟩ ∧
    getSelectedEntry (⟨[1], -2, 0, false, false, none⟩ : SOSet Nat) = none := by
  exact ⟨rfl, by decide⟩

/-- C4 counterexample: `addAt` accepts the negative index `-1` (only
`index <= size` is asserted), and `removeAt` accepts every index — `5` and
`-1` on a one-element set — without error; the claim requires each of these
calls to fail. -/
theorem c4_counterexample :
    (addAt (⟨[1], 0, 0, false, false, none⟩ : SOSet Nat) 2 (-1)).error = none ∧
    (addAt (⟨[1], 0, 0, false, false, none⟩ : SOSet Nat) 2 (-1)).state.entries = [2, 1] ∧
    (removeAt (⟨[1], 0, 0, false, false, none⟩ : SOSet Nat) 5).error = none ∧
    (removeAt (⟨[1, 2], 0, 0, false, false, none⟩ : SOSet Nat) (-1)).error = none ∧
    (removeAt (⟨[1, 2], 0, 0, false, false, none⟩ : SOSet Nat) (-1)).state.entries = [1] := by
  decide

/-- C5 counterexample: a failed duplicate `addAt` leaves `transactionDepth`
at `1` (the claim says the entire observable state, `transactionDepth`
included, is restored), and a subsequent successful top-level `add` then
emits only its immediate event — its batched `did-change-entries` event is
suppressed because the depth never returns to zero (the claim says it still
emits its batched events). -/
theorem c5_counterexample :
    (addAt (⟨[1], 0, 0, false, false, none⟩ : SOSet Nat) 1 0).error = some Err.assertionFailed ∧
    (addAt (⟨[1], 0, 0, false, false, none⟩ : SOSet Nat) 1 0).state =
      ⟨[1], 0, 1, false, false, none⟩ ∧
    (addAt (⟨[1], 0, 0, false, false, none⟩ : SOSet Nat) 1 0).trace = [] ∧
    (add (⟨[1], 0, 1, false, false, none⟩ : SOSet Nat) 2).error = none ∧
    (add (⟨[1], 0, 1, false, false, none⟩ : SOSet Nat) 2).state.entries = [1, 2] ∧
    (add (⟨[1], 0, 1, false, false, none⟩ : SOSet Nat) 2).trace = [Ev.didAddEntry 2 1] := by
  decide

/-- C6 counterexample: `destroy()` on an empty set fires neither
`did-change-entries` nor `did-change-selected-entry` (the claim requires
exactly one of each), and on the one-entry set reached by adding to an empty
set (whose `selectedIndex` is still `-1`) it fires `did-change-entries` but
no `did-change-selected-entry`. -/
theorem c6_counterexample :
    (destroy (fun _ => false) (⟨[], -1, 0, false, false, none⟩ : SOSet Nat)).trace =
      [Ev.didDestroy] ∧
    (add (⟨[], -1, 0, false, false, none⟩ : SOSet Nat) 7).state =
      ⟨[7], -1, 0, false, false, none⟩ ∧
    (destroy (fun _ => false) (⟨[7], -1, 0, false, false, none⟩ : SOSet Nat)).trace =
      [Ev.didRemoveEntry (some 7) 0, Ev.didChangeEntries [], Ev.didDestroy] := by
  decide

/-- C10 counterexample: the one-entry set reached by adding to an empty set
still has `selectedIndex = -1`, and there `selectNext()`/`selectPrevious()`
do mutate the state (the wraparound computes index `0 ≠ -1`, so `selectAt`
does not take its early return) and emit `did-change-selected-entry`; the
claim says every one-entry set is left unchanged with no events. -/
theorem c10_counterexample :
    (add (⟨[], -1, 0, false, false, none⟩ : SOSet Nat) 7).state =
      ⟨[7], -1, 0, false, false, none⟩ ∧
    (selectNext (⟨[7], -1, 0, false, false, none⟩ : SOSet Nat)).state.selectedIndex = 0 ∧
    (selectNext (⟨[7], -1, 0, false, false, none⟩ : SOSet Nat)).trace =
      [Ev.didChangeSelectedEntry (some 7)] ∧
    (selectPrevious (⟨[7], -1, 0, false, false, none⟩ : SOSet Nat)).state.selectedIndex = 0 ∧
    (selectPrevious (⟨[7], -1, 0, false, false, none⟩ : SOSet Nat)).trace =
      [Ev.didChangeSelectedEntry (some 7)] := by
  decide

end SelSet

namespace SelSet

/-- The body of `addAt` emits no bulk events and leaves `transactionDepth`
unchanged when it succeeds. -/
theorem addAtBody_nested [DecidableEq α] (e : α) (i : Int) (s : SOSet α) :
    (∀ ev ∈ (addAtBody e i s).trace, isBulk ev = false) ∧
    ((addAtBody e i s).error = none →
      (addAtBody e i s).state.transactionDepth = s.transactionDepth) := by
  simp only [addAtBody, didAddEntry, emit]
  split
  · simp
  · split
    · simp
    · split <;> simp [isBulk]

/-- The body of `removeAt` emits no bulk events and leaves `transactionDepth`
unchanged. -/
theorem removeAtBody_nested [DecidableEq α] (i : Int) (s : SOSet α) :
    (∀ ev ∈ (removeAtBody i s).trace, isBulk ev = false) ∧
    ((removeAtBody i s).error = none →
      (removeAtBody i s).state.transactionDepth = s.transactionDepth) := by
  refine ⟨?_, ?_⟩
  · intro ev hev
    simp only [removeAtBody, didRemoveEntry, emit] at hev
    simp_all [isBulk]
  · intro _
    simp only [removeAtBody, didRemoveEntry, emit]
    repeat' split
    all_goals rfl

/-- The body of `selectAt` emits nothing and leaves `transactionDepth`
unchanged. -/
theorem selectAtBody_nested [DecidableEq α] (i : Int) (s : SOSet α) :
    (∀ ev ∈ (selectAtBody i s).trace, isBulk ev = false) ∧
    ((selectAtBody i s).error = none →
      (selectAtBody i s).state.transactionDepth = s.transactionDepth) := by
  refine ⟨?_, ?_⟩
  · intro ev hev
    simp only [selectAtBody] at hev
    split at hev
    · simp_all
    · split at hev <;> simp_all
  · intro _
    simp only [selectAtBody]
    split
    · rfl
    · split <;> rfl

/-- A `transact` started at positive depth returns before the batched events
fire: its trace is bulk-free (given a bulk-free body) and it restores the
depth on success. -/
theorem transact_nested [DecidableEq α] (s : SOSet α) (fn : SOSet α → Outcome α)
    (h : 1 ≤ s.transactionDepth)
    (hb : ∀ ev ∈ (fn { s with transactionDepth := s.transactionDepth + 1 }).trace,
      isBulk ev = false)
    (hd : (fn { s with transactionDepth := s.transactionDepth + 1 }).error = none →
      (fn { s with transactionDepth := s.transactionDepth + 1 }).state.transactionDepth
        = s.transactionDepth + 1) :
    (∀ ev ∈ (transact s fn).trace, isBulk ev = false) ∧
    ((transact s fn).error = none →
      (transact s fn).state.transactionDepth = s.transactionDepth) := by
  cases herr : (fn { s with transactionDepth := s.transactionDepth + 1 }).error with
  | some e =>
    simp only [transact, finishTransact, herr]
    refine ⟨?_, by simp⟩
    intro ev hev
    rcases List.mem_append.mp hev with h1 | h1
    · split at h1 <;> simp_all [isBulk]
    · exact hb ev h1
  | none =>
    have hdep := hd herr
    have h0 : s.transactionDepth ≠ 0 := by omega
    simp only [transact, finishTransact, herr, hdep, Nat.add_sub_cancel, ne_eq, h0,
      not_false_eq_true, if_true]
    refine ⟨?_, fun _ => trivial⟩
    intro ev hev
    rcases List.mem_append.mp hev with h1 | h1
    · split at h1 <;> simp_all [isBulk]
    · exact hb ev h1

end SelSet

namespace SelSet

mutual
/-- Any single call performed at positive transaction depth (i.e. from inside
an enclosing transaction) emits no bulk events, and on success leaves the
depth where it found it. -/
theorem runOp_nested [DecidableEq α] (op : Op α) (s : SOSet α) (h : 1 ≤ s.transactionDepth) :
    (∀ ev ∈ (runOp op s).trace, isBulk ev = false) ∧
    ((runOp op s).error = none → (runOp op s).state.transactionDepth = s.transactionDepth) := by
  cases op with
  | add e =>
    simp only [runOp, add, addAt]
    exact transact_nested s _ h (addAtBody_nested e _ _).1 (addAtBody_nested e _ _).2
  | addAt e i =>
    simp only [runOp, addAt]
    exact transact_nested s _ h (addAtBody_nested e _ _).1 (addAtBody_nested e _ _).2
  | remove e =>
    simp only [runOp, remove, removeAt]
    split
    · exact ⟨by simp, fun _ => rfl⟩
    · exact transact_nested s _ h (removeAtBody_nested _ _).1 (removeAtBody_nested _ _).2
  | removeAt i =>
    simp only [runOp, removeAt]
    exact transact_nested s _ h (removeAtBody_nested _ _).1 (removeAtBody_nested _ _).2
  | select e =>
    simp only [runOp, select, selectAt]
    split
    · exact ⟨by simp, by simp⟩
    · exact transact_nested s _ h (selectAtBody_nested _ _).1 (selectAtBody_nested _ _).2
  | selectAt i =>
    simp only [runOp, selectAt]
    exact transact_nested s _ h (selectAtBody_nested _ _).1 (selectAtBody_nested _ _).2
  | selectNext =>
    simp only [runOp, selectNext, selectAt]
    split
    · exact ⟨by simp, fun _ => rfl⟩
    · exact transact_nested s _ h (selectAtBody_nested _ _).1 (selectAtBody_nested _ _).2
  | selectPrevious =>
    simp only [runOp, selectPrevious, selectAt]
    split
    · exact ⟨by simp, fun _ => rfl⟩
    · exact transact_nested s _ h (selectAtBody_nested _ _).1 (selectAtBody_nested _ _).2
  | transact body =>
    rw [runOp_transact]
    exact transact_nested s _ h
      (runProg_nested body _ (Nat.le_add_left 1 s.transactionDepth)).1
      (runProg_nested body _ (Nat.le_add_left 1 s.transactionDepth)).2

/-- Any call sequence run at positive transaction depth emits no bulk events,
and on success leaves the depth where it found it. -/
theorem runProg_nested [DecidableEq α] (p : Prog α) (s : SOSet α) (h : 1 ≤ s.transactionDepth) :
    (∀ ev ∈ (runProg p s).trace, isBulk ev = false) ∧
    ((runProg p s).error = none → (runProg p s).state.transactionDepth = s.transactionDepth) := by
  cases p with
  | nil =>
    simp only [runProg]
    exact ⟨by simp, by intro _; trivial⟩
  | cons op rest =>
    have h1 := runOp_nested op s h
    simp only [runProg]
    cases herr : (runOp op s).error with
    | some e =>
      simp only [herr]
      exact ⟨h1.1, by simp⟩
    | none =>
      have hdep := h1.2 herr
      have h2 := runProg_nested rest (runOp op s).state (by omega)
      simp only [herr]
      refine ⟨?_, ?_⟩
      · intro ev hev
        rcases List.mem_append.mp hev with hm | hm
        · exact h1.1 ev hm
        · exact h2.1 ev hm
      · intro he
        have h3 := h2.2 he
        simp only [h3, hdep]
end

end SelSet

namespace SelSet

/-- Lemma: `finishTransact` at the end of a successful top-level transaction: the
depth returns to `0`, the dirty flag is cleared, and the two batched events
fire, conditionally, in order, carrying the final state. -/
theorem finishTransact_top [DecidableEq α] (prev : Option α) (o : Outcome α)
    (herr : o.error = none) (hdep : o.state.transactionDepth = 1) :
    finishTransact prev o =
      ⟨{ o.state with
          transactionDepth := 0
          currentTransactionChangedEntries := false
          emitting := if o.state.currentTransactionChangedEntries ∨ getSelectedEntry o.state ≠ prev
            then false else o.state.emitting },
       o.trace
       ++ (if o.state.currentTransactionChangedEntries
           then [Ev.didChangeEntries o.state.entries] else [])
       ++ (if getSelectedEntry o.state ≠ prev
           then [Ev.didChangeSelectedEntry (getSelectedEntry o.state)] else []),
       none⟩ := by
  simp only [finishTransact, herr, hdep, emit, getEntries]
  norm_num
  split
  · split
    · simp_all [getSelectedEntry, jsGetElem]
    · simp_all [getSelectedEntry, jsGetElem]
  · split
    · simp_all [getSelectedEntry, jsGetElem]
    · simp_all [getSelectedEntry, jsGetElem]

end SelSet

namespace SelSet

/-- C2: a top-level `transact(body)` emits, after all the body's events, at
most one `did-change-entries` (with the final snapshot) and at most one
`did-change-selected-entry` (present exactly when the selected entry after
the transaction differs from the one recorded before it, and carrying the
final selected entry); no bulk event occurs inside the body prefix. -/
theorem c2_transact_batches (α : Type) [DecidableEq α] (s : SOSet α) (body : Prog α)
    (h0 : s.transactionDepth = 0)
    (hok : (runOp (Op.transact body) s).error = none) :
    ∃ (pre : List (Ev α)) (b : Bool),
      (∀ ev ∈ pre, isBulk ev = false) ∧
      (runOp (Op.transact body) s).trace =
        pre
        ++ (if b then [Ev.didChangeEntries (getEntries (runOp (Op.transact body) s).state)]
            else [])
        ++ (if getSelectedEntry (runOp (Op.transact body) s).state ≠ getSelectedEntry s
            then [Ev.didChangeSelectedEntry (getSelectedEntry (runOp (Op.transact body) s).state)]
            else []) := by
  rw [runOp_transact] at hok ⊢
  rw [transact_error] at hok
  have hprog := runProg_nested body { s with transactionDepth := s.transactionDepth + 1 }
    (Nat.le_add_left 1 s.transactionDepth)
  have hdep : (runProg body { s with transactionDepth := s.transactionDepth + 1 }).state.transactionDepth = 1 := by
    rw [hprog.2 hok]
    simp [h0]
  refine ⟨(if s.emitting then [Ev.warn] else [])
    ++ (runProg body { s with transactionDepth := s.transactionDepth + 1 }).trace,
    (runProg body { s with transactionDepth := s.transactionDepth + 1 }).state.currentTransactionChangedEntries,
    ?_, ?_⟩
  · intro ev hev
    rcases List.mem_append.mp hev with hm | hm
    · split at hm <;> simp_all [isBulk]
    · exact hprog.1 ev hm
  · simp only [transact, finishTransact_top (getSelectedEntry s) _ hok hdep]
    simp [getSelectedEntry, jsGetElem, getEntries]

end SelSet

namespace SelSet

/-- C3: for a valid index, `removeAt` removes exactly the entry at that
index, rebalances the selection by the exact rule of the source, succeeds,
and the first event of the call is the immediate `did-remove-entry` carrying
the removed entry and the index it had at removal time. -/
theorem c3_removeAt_spec (α : Type) [DecidableEq α] (s : SOSet α) (i : Int)
    (h0 : 0 ≤ i) (h1 : i < (getSize s : Int)) (hd : s.transactionDepth = 0)
    (hem : s.emitting = false) :
    (removeAt s i).error = none ∧
    (removeAt s i).state.entries = s.entries.take i.toNat ++ s.entries.drop (i.toNat + 1) ∧
    (removeAt s i).state.selectedIndex =
      (if (getSize s : Int) - 1 = 0 then -1
       else if i < s.selectedIndex then max 0 (s.selectedIndex - 1)
       else min s.selectedIndex ((getSize s : Int) - 1 - 1)) ∧
    (∃ e, jsGetElem s.entries i = some e ∧
      (removeAt s i).trace.head? = some (Ev.didRemoveEntry (some e) i)) := by
  have hlt : i.toNat < s.entries.length := by
    simp only [getSize] at h1
    omega
  have herr : (removeAtBody i { s with transactionDepth := s.transactionDepth + 1 }).error
      = none := by
    simp only [removeAtBody, didRemoveEntry, emit]
  have hdep : (removeAtBody i { s with transactionDepth := s.transactionDepth + 1 }).state.transactionDepth = 1 := by
    rw [(removeAtBody_nested i _).2 herr]
    simp [hd]
  have hsplice : jsSpliceRemoveOne s.entries i
      = s.entries.take i.toNat ++ s.entries.drop (i.toNat + 1) := by
    simp only [jsSpliceRemoveOne, jsSpliceStart]
    have hn : ¬ i < 0 := by omega
    rw [if_neg hn]
    have hm : min i.toNat s.entries.length = i.toNat := by omega
    rw [hm]
  have hlen : (s.entries.take i.toNat ++ s.entries.drop (i.toNat + 1)).length
      = s.entries.length - 1 := by
    simp only [List.length_append, List.length_take, List.length_drop]
    omega
  have hget : jsGetElem s.entries i = some s.entries[i.toNat] := by
    simp only [jsGetElem, if_pos h0]
    exact List.getElem?_eq_getElem hlt
  refine ⟨?_, ?_, ?_, ?_⟩
  · rw [removeAt, transact_error, herr]
  · simp only [removeAt, transact, finishTransact_top _ _ herr hdep]
    simp only [removeAtBody, didRemoveEntry, emit, hsplice]
    repeat' split
    all_goals rfl
  · simp only [removeAt, transact, finishTransact_top _ _ herr hdep]
    simp only [removeAtBody, didRemoveEntry, emit, hsplice, getSize, hlen]
    repeat' split
    all_goals simp_all only [getSize]
    all_goals omega
  · refine ⟨s.entries[i.toNat], hget, ?_⟩
    simp only [removeAt, transact, finishTransact_top _ _ herr hdep]
    simp only [removeAtBody, didRemoveEntry, emit, hget, hem]
    simp

end SelSet

namespace SelSet

/-- Lemma: `selectAt` on the already-selected index is a silent no-op: state
untouched, no events, no error. -/
theorem selectAt_self [DecidableEq α] (s : SOSet α)
    (hfl : s.currentTransactionChangedEntries = false) (hem : s.emitting = false) :
    selectAt s s.selectedIndex = ⟨s, [], none⟩ := by
  obtain ⟨en, sel, dep, fl, em, al⟩ := s
  simp only at hfl hem
  subst hfl
  subst hem
  simp only [selectAt, transact, selectAtBody, finishTransact, emit]
  split <;> simp_all

/-- Lemma: `finishTransact` never touches the entries. -/
theorem finishTransact_entries [DecidableEq α] (prev : Option α) (o : Outcome α) :
    (finishTransact prev o).state.entries = o.state.entries := by
  simp only [finishTransact, emit]
  split
  · rfl
  · split
    · rfl
    · split <;> split <;> rfl

/-- Lemma: a `transact` entered while `emitting` is true records the warning first. -/
theorem transact_warn [DecidableEq α] (s : SOSet α) (fn : SOSet α → Outcome α)
    (h : s.emitting = true) :
    (transact s fn).trace.head? = some Ev.warn := by
  simp [transact, h]

/-- C10 (amended): on a one-entry set whose single entry is selected
(`selectedIndex = 0`), `selectNext` and `selectPrevious` leave the state
untouched and emit nothing. -/
theorem c10_singleton_selected_noop (α : Type) [DecidableEq α] (s : SOSet α)
    (h1 : getSize s = 1) (h2 : s.selectedIndex = 0)
    (hfl : s.currentTransactionChangedEntries = false) (hem : s.emitting = false) :
    selectNext s = ⟨s, [], none⟩ ∧ selectPrevious s = ⟨s, [], none⟩ := by
  have hnz : ¬ getSize s = 0 := by omega
  have hnext : jsMod (s.selectedIndex + 1) (getSize s : Int) = s.selectedIndex := by
    rw [h1, h2]
    rfl
  have hprev : jsMod (s.selectedIndex - 1 + (getSize s : Int)) (getSize s : Int)
      = s.selectedIndex := by
    rw [h1, h2]
    rfl
  constructor
  · rw [selectNext, if_neg hnz, hnext]
    exact selectAt_self s hfl hem
  · rw [selectPrevious, if_neg hnz, hprev]
    exact selectAt_self s hfl hem

end SelSet

namespace SelSet

/-- C4 (amended): the actual validation behaviour.  `addAt` fails exactly for
a duplicate entry or an index strictly above `size()` (negative indices are
accepted); `removeAt` never fails; `selectAt` fails exactly for an index that
is both different from the selected one and outside `[0, size)`; `selectAt`
on the already-selected index is a silent no-op. -/
theorem c4_amended (α : Type) [DecidableEq α] :
    (∀ (s : SOSet α) (e : α) (i : Int),
      (addAt s e i).error.isSome ↔ (e ∈ s.entries ∨ (getSize s : Int) < i)) ∧
    (∀ (s : SOSet α) (i : Int), (removeAt s i).error = none) ∧
    (∀ (s : SOSet α) (i : Int),
      (selectAt s i).error.isSome ↔ (i ≠ s.selectedIndex ∧ (i < 0 ∨ (getSize s : Int) ≤ i))) ∧
    (∀ (s : SOSet α), s.currentTransactionChangedEntries = false → s.emitting = false →
      selectAt s s.selectedIndex = ⟨s, [], none⟩) := by
  refine ⟨?_, ?_, ?_, fun s hfl hem => selectAt_self s hfl hem⟩
  · intro s e i
    rw [addAt, transact_error]
    simp only [addAtBody, didAddEntry, emit, includes, getSize]
    split
    · rename_i h
      simp_all
    · split
      · rename_i h1 h2
        simp_all
      · rename_i h1 h2
        simp_all
  · intro s i
    rw [removeAt, transact_error]
    rfl
  · intro s i
    rw [selectAt, transact_error]
    simp only [selectAtBody, getSize]
    split
    · rename_i h
      simp_all
    · split
      · rename_i h1 h2
        simp_all
      · rename_i h1 h2
        simp_all

end SelSet

namespace SelSet

/-- C5 (amended): `select` of an absent entry throws before mutating anything
(the state is returned exactly as it was); failing `addAt`/`selectAt` calls
leave entries, `selectedIndex`, the dirty flag, `emitting` and `alive`
untouched and emit nothing, but keep the incremented `transactionDepth`
(there is no exception cleanup in `transact`); consequently, from any state
whose depth is still positive, every subsequent call runs nested and emits no
batched events. -/
theorem c5_amended (α : Type) [DecidableEq α] :
    (∀ (s : SOSet α) (e : α), indexOf s e = -1 →
      select s e = ⟨s, [], some Err.entryNotInSet⟩) ∧
    (∀ (s : SOSet α) (e : α) (i : Int), s.emitting = false →
      (e ∈ s.entries ∨ (getSize s : Int) < i) →
      addAt s e i =
        ⟨{ s with transactionDepth := s.transactionDepth + 1 }, [], some Err.assertionFailed⟩) ∧
    (∀ (s : SOSet α) (i : Int), s.emitting = false → i ≠ s.selectedIndex →
      (i < 0 ∨ (getSize s : Int) ≤ i) →
      selectAt s i =
        ⟨{ s with transactionDepth := s.transactionDepth + 1 }, [], some Err.invalidSelectionIndex⟩) ∧
    (∀ (s : SOSet α) (op : Op α), 1 ≤ s.transactionDepth →
      ∀ ev ∈ (runOp op s).trace, isBulk ev = false) := by
  refine ⟨?_, ?_, ?_, fun s op h => (runOp_nested op s h).1⟩
  · intro s e he
    simp [select, indexOf] at he ⊢
    simp [he]
  · intro s e i hem hfail
    simp only [getSize] at hfail
    have hbody : addAtBody e i { s with transactionDepth := s.transactionDepth + 1 } =
        ⟨{ s with transactionDepth := s.transactionDepth + 1 }, [], some Err.assertionFailed⟩ := by
      simp only [addAtBody, includes, getSize]
      split
      · rfl
      · split
        · rfl
        · rename_i h1 h2
          exfalso
          simp only [not_not] at h2
          rcases hfail with hmem | hlt
          · exact h1 (by simpa using hmem)
          · omega
    simp only [addAt, transact, hbody, finishTransact]
    simp [hem]
  · intro s i hem hne hout
    simp only [getSize] at hout
    have hbody : selectAtBody i { s with transactionDepth := s.transactionDepth + 1 } =
        ⟨{ s with transactionDepth := s.transactionDepth + 1 }, [], some Err.invalidSelectionIndex⟩ := by
      simp only [selectAtBody, getSize]
      split
      · rename_i h
        exact absurd h hne
      · rfl
    simp only [selectAt, transact, hbody, finishTransact]
    simp [hem]

end SelSet

namespace SelSet

/-- C9 counterexample: in the reentrant scenario — listener on
`did-add-entry` reacting to entry `0` by performing `add(1)` and then
`add(2)`, and a client call `add(0)` on an empty set — both reentrant
mutations take effect (final entries `[0, 1, 2]`, both `did-add-entry`
events dispatched during the outer dispatch), but only ONE warning is
surfaced: the nested `emit` of the first reentrant `add` resets `emitting`
to `false` on completion, so the second reentrant mutation proceeds with no
diagnostic.  The claim requires a warning before every reentrant mutation,
including one attempted after an earlier reentrant mutation completed. -/
theorem c9_counterexample :
    reentrantRun =
      ⟨⟨[0, 1, 2], -1, 0, false, false, none⟩,
       [Ev.didAddEntry 0 0, Ev.warn, Ev.didAddEntry 1 1, Ev.didAddEntry 2 2,
        Ev.didChangeEntries [0, 1, 2]], none⟩ ∧
    reentrantRun.trace.count Ev.warn = 1 := by
  have h : reentrantRun =
      ⟨⟨[0, 1, 2], -1, 0, false, false, none⟩,
       [Ev.didAddEntry 0 0, Ev.warn, Ev.didAddEntry 1 1, Ev.didAddEntry 2 2,
        Ev.didChangeEntries [0, 1, 2]], none⟩ := by
    simp [reentrantRun, addL, addAtL, emitL, runAddsL, reentrantListener,
      includes, getSize, getEntries, getSelectedEntry, jsGetElem, jsSpliceInsert,
      jsSpliceStart]
  refine ⟨h, ?_⟩
  rw [h]
  decide

/-- C9 (amended): whenever a mutation that reaches the `transact` wrapper is
performed while `emitting` is true, the `console.warn` diagnostic is
surfaced before anything else, and the mutation still takes effect (shown
for `addAt`, whose splice is performed exactly as when no dispatch is in
progress). -/
theorem c9_amended (α : Type) [DecidableEq α] :
    (∀ (s : SOSet α) (op : Op α), s.emitting = true → entersTransact op s = true →
      (runOp op s).trace.head? = some Ev.warn) ∧
    (∀ (s : SOSet α) (e : α) (i : Int), s.emitting = true → e ∉ s.entries →
      i ≤ (getSize s : Int) →
      (addAt s e i).error = none ∧
      (addAt s e i).state.entries = jsSpliceInsert s.entries i e) := by
  constructor
  · intro s op hem hop
    cases op with
    | add e => exact transact_warn s _ hem
    | addAt e i => exact transact_warn s _ hem
    | remove e =>
      simp only [entersTransact] at hop
      simp only [runOp, remove]
      rw [if_neg (by simpa using hop)]
      exact transact_warn s _ hem
    | removeAt i => exact transact_warn s _ hem
    | select e =>
      simp only [entersTransact] at hop
      simp only [runOp, select]
      rw [if_neg (by simpa using hop)]
      exact transact_warn s _ hem
    | selectAt i => exact transact_warn s _ hem
    | selectNext =>
      simp only [entersTransact] at hop
      simp only [runOp, selectNext]
      rw [if_neg (by simpa using hop)]
      exact transact_warn s _ hem
    | selectPrevious =>
      simp only [entersTransact] at hop
      simp only [runOp, selectPrevious]
      rw [if_neg (by simpa using hop)]
      exact transact_warn s _ hem
    | transact body => exact transact_warn s _ hem
  · intro s e i hem hmem hle
    have herr : (addAtBody e i { s with transactionDepth := s.transactionDepth + 1 }).error
        = none := by
      simp only [addAtBody, includes, getSize]
      rw [if_neg (by simpa using hmem), if_neg (by simpa using hle)]
    constructor
    · rw [addAt, transact_error, herr]
    · have hent : (addAtBody e i { s with transactionDepth := s.transactionDepth + 1 }).state.entries
          = jsSpliceInsert s.entries i e := by
        simp only [addAtBody, includes, getSize, didAddEntry, emit]
        rw [if_neg (by simpa using hmem), if_neg (by simpa using hle)]
        split <;> rfl
      rw [addAt, transact]
      simp only [finishTransact_entries, hent]

end SelSet

namespace SelSet

/-- The `destroyEntries` loop, run inside the transaction over the snapshot
of the entries: every entry is destroyed (when it has that capability)
immediately before being removed at index `0`, the entries end empty, the
selection ends at `-1` (unless there was nothing to remove), and the dirty
flag is set (unless there was nothing to remove). -/
theorem destroyEntriesLoop_spec (α : Type) [DecidableEq α] (hasDestroy : α → Bool)
    (l : List α) (s : SOSet α) (hval : s.entries = l) (hd : 1 ≤ s.transactionDepth)
    (hem : s.emitting = false) :
    destroyEntriesLoop hasDestroy l s =
      ⟨{ s with
          entries := ([] : List α)
          selectedIndex := (if l.isEmpty then s.selectedIndex else -1)
          currentTransactionChangedEntries :=
            (if l.isEmpty then s.currentTransactionChangedEntries else true)
          emitting := false },
       l.flatMap (fun e =>
         (if hasDestroy e then [Ev.entryDestroyed e] else [])
         ++ [Ev.didRemoveEntry (some e) 0]),
       none⟩ := by
  induction l generalizing s with
  | nil =>
    obtain ⟨en, sel, dep, fl, em, al⟩ := s
    simp only at hval hem
    subst hval
    subst hem
    simp [destroyEntriesLoop]
  | cons e rest ih =>
    obtain ⟨en, sel, dep, fl, em, al⟩ := s
    simp only at hval hem hd
    subst hval
    subst hem
    have hrm : remove (⟨e :: rest, sel, dep, fl, false, al⟩ : SOSet α) e =
        ⟨⟨rest,
          if rest.length = 0 then -1
          else if (0 : Int) < sel then max 0 (sel - 1)
          else min sel ((rest.length : Int) - 1),
          dep, true, false, al⟩,
         [Ev.didRemoveEntry (some e) 0], none⟩ := by
      have hidx : indexOf (⟨e :: rest, sel, dep, fl, false, al⟩ : SOSet α) e = 0 := by
        simp [indexOf, jsIndexOf]
      rw [remove]
      simp only [hidx]
      rw [if_neg (by decide)]
      simp only [removeAt, transact, removeAtBody, didRemoveEntry, emit, finishTransact,
        jsGetElem, jsSpliceRemoveOne, jsSpliceStart, getSize]
      norm_num
      have hne : ¬ dep + 1 - 1 = 0 := by omega
      simp only [apply_ite SOSet.transactionDepth, ite_self, ne_eq, hne, not_false_eq_true,
        if_true, if_false]
      simp only [apply_ite SOSet.entries, apply_ite SOSet.selectedIndex, apply_ite SOSet.alive,
        ite_self, SOSet.mk.injEq, Nat.add_sub_cancel]
      simp
    simp only [destroyEntriesLoop, includes]
    rw [if_neg (by simp)]
    rw [hrm]
    simp only []
    rw [ih _ rfl (by simpa using hd) rfl]
    simp only [destroyEntryTrace, List.flatMap_cons]
    rcases rest with _ | ⟨r, rs⟩
    · simp
    · simp

end SelSet

namespace SelSet

/-- C6 (amended): `destroy()` on a top-level, clean set destroys (when the
capability is present) and removes each of the N entries in order — each
destruction immediately preceding its removal, each removal at index `0` —
then fires exactly one `did-change-entries` with the empty snapshot when
N ≥ 1 (none when N = 0), exactly one `did-change-selected-entry` carrying no
entry exactly when an entry was selected before the call (none otherwise,
e.g. when N = 0 or when `selectedIndex` was `-1`), and finally `did-destroy`
once; afterwards the set is empty and not alive. -/
theorem c6_destroy_spec (α : Type) [DecidableEq α] (hasDestroy : α → Bool) (s : SOSet α)
    (hd : s.transactionDepth = 0) (hfl : s.currentTransactionChangedEntries = false)
    (hem : s.emitting = false) :
    destroy hasDestroy s =
      ⟨⟨[], (if s.entries.isEmpty then s.selectedIndex else -1), 0, false, false, some false⟩,
       (s.entries.flatMap (fun e =>
          (if hasDestroy e then [Ev.entryDestroyed e] else [])
          ++ [Ev.didRemoveEntry (some e) 0]))
       ++ (if s.entries.isEmpty then [] else [Ev.didChangeEntries ([] : List α)])
       ++ (if getSelectedEntry s = none then [] else [Ev.didChangeSelectedEntry none])
       ++ [Ev.didDestroy], none⟩ := by
  obtain ⟨en, sel, dep, fl, em, al⟩ := s
  simp only at hd hfl hem
  subst hd
  subst hfl
  subst hem
  have hloop := destroyEntriesLoop_spec α hasDestroy en
    (⟨en, sel, 0 + 1, false, false, al⟩ : SOSet α) rfl (by simp) rfl
  rw [destroy, destroyEntries, transact]
  simp only [getEntries, hloop]
  rw [finishTransact_top _ _ rfl rfl]
  rcases en with _ | ⟨x, xs⟩
  · simp [emit, getSelectedEntry, jsGetElem]
  · rcases hsel : getSelectedEntry
        (⟨x :: xs, sel, 0, false, false, al⟩ : SOSet α) with _ | v
    · simp only [getSelectedEntry] at hsel
      simp [emit, getSelectedEntry, jsGetElem, hsel]
    · simp only [getSelectedEntry] at hsel
      simp [emit, getSelectedEntry, jsGetElem, hsel]

end SelSet

namespace SelSet

/-- Witness for C2: the repository's own transact test — entries
`[1, 2, 3]`, selected `1`, and a transaction performing `add 4`, `remove 1`,
`select 3`. -/
theorem c2_transact_batches_witness :
    ∃ (pre : List (Ev Nat)) (b : Bool),
      (∀ ev ∈ pre, isBulk ev = false) ∧
      (runOp (Op.transact (Prog.cons (Op.add 4) (Prog.cons (Op.remove 1)
          (Prog.cons (Op.select 3) Prog.nil))))
        (⟨[1, 2, 3], 0, 0, false, false, none⟩ : SOSet Nat)).trace =
        pre
        ++ (if b then [Ev.didChangeEntries (getEntries
              (runOp (Op.transact (Prog.cons (Op.add 4) (Prog.cons (Op.remove 1)
                  (Prog.cons (Op.select 3) Prog.nil))))
                (⟨[1, 2, 3], 0, 0, false, false, none⟩ : SOSet Nat)).state)]
            else [])
        ++ (if getSelectedEntry (runOp (Op.transact (Prog.cons (Op.add 4)
                (Prog.cons (Op.remove 1) (Prog.cons (Op.select 3) Prog.nil))))
              (⟨[1, 2, 3], 0, 0, false, false, none⟩ : SOSet Nat)).state
              ≠ getSelectedEntry (⟨[1, 2, 3], 0, 0, false, false, none⟩ : SOSet Nat)
            then [Ev.didChangeSelectedEntry (getSelectedEntry
              (runOp (Op.transact (Prog.cons (Op.add 4) (Prog.cons (Op.remove 1)
                  (Prog.cons (Op.select 3) Prog.nil))))
                (⟨[1, 2, 3], 0, 0, false, false, none⟩ : SOSet Nat)).state)]
            else []) :=
  c2_transact_batches Nat ⟨[1, 2, 3], 0, 0, false, false, none⟩
    (Prog.cons (Op.add 4) (Prog.cons (Op.remove 1) (Prog.cons (Op.select 3) Prog.nil)))
    rfl (by decide)

/-- Witness for C3: the spec's example — entries `[a, b, c]` as
`[10, 20, 30]` with index `1` selected; removing index `1`. -/
theorem c3_removeAt_spec_witness :
    (removeAt (⟨[10, 20, 30], 1, 0, false, false, none⟩ : SOSet Nat) 1).error = none ∧
    (removeAt (⟨[10, 20, 30], 1, 0, false, false, none⟩ : SOSet Nat) 1).state.entries =
      ([10, 20, 30] : List Nat).take (1 : Int).toNat
        ++ ([10, 20, 30] : List Nat).drop ((1 : Int).toNat + 1) ∧
    (removeAt (⟨[10, 20, 30], 1, 0, false, false, none⟩ : SOSet Nat) 1).state.selectedIndex =
      (if (getSize (⟨[10, 20, 30], 1, 0, false, false, none⟩ : SOSet Nat) : Int) - 1 = 0 then -1
       else if (1 : Int) < 1 then max 0 (1 - 1)
       else min 1 ((getSize (⟨[10, 20, 30], 1, 0, false, false, none⟩ : SOSet Nat) : Int) - 1 - 1)) ∧
    (∃ e, jsGetElem ([10, 20, 30] : List Nat) 1 = some e ∧
      (removeAt (⟨[10, 20, 30], 1, 0, false, false, none⟩ : SOSet Nat) 1).trace.head?
        = some (Ev.didRemoveEntry (some e) 1)) :=
  c3_removeAt_spec Nat ⟨[10, 20, 30], 1, 0, false, false, none⟩ 1
    (by decide) (by decide) rfl rfl

/-- Witness for C4 (amended): the silent-no-op clause at a concrete set, and
the `addAt` validation clause at a concrete out-of-range call. -/
theorem c4_amended_witness :
    (selectAt (⟨[5], 0, 0, false, false, none⟩ : SOSet Nat) 0 =
      ⟨⟨[5], 0, 0, false, false, none⟩, [], none⟩) ∧
    ((addAt (⟨[5], 0, 0, false, false, none⟩ : SOSet Nat) 6 2).error.isSome ↔
      (6 ∈ ([5] : List Nat) ∨ (getSize (⟨[5], 0, 0, false, false, none⟩ : SOSet Nat) : Int) < 2)) :=
  ⟨(c4_amended Nat).2.2.2 ⟨[5], 0, 0, false, false, none⟩ rfl rfl,
   (c4_amended Nat).1 ⟨[5], 0, 0, false, false, none⟩ 6 2⟩

/-- Witness for C5 (amended): `select` of an absent entry and a duplicate
`addAt`, both on the one-entry set `[1]`. -/
theorem c5_amended_witness :
    (select (⟨[1], 0, 0, false, false, none⟩ : SOSet Nat) 2 =
      ⟨⟨[1], 0, 0, false, false, none⟩, [], some Err.entryNotInSet⟩) ∧
    (addAt (⟨[1], 0, 0, false, false, none⟩ : SOSet Nat) 1 0 =
      ⟨⟨[1], 0, 0 + 1, false, false, none⟩, [], some Err.assertionFailed⟩) :=
  ⟨(c5_amended Nat).1 ⟨[1], 0, 0, false, false, none⟩ 2 (by decide),
   (c5_amended Nat).2.1 ⟨[1], 0, 0, false, false, none⟩ 1 0 rfl (by decide)⟩

/-- Witness for C6 (amended): destroying `[1, 2]` (both entries with the
destroy capability, index 0 selected) produces exactly the claimed trace. -/
theorem c6_destroy_spec_witness :
    destroy (fun _ => true) (⟨[1, 2], 0, 0, false, false, none⟩ : SOSet Nat) =
      ⟨⟨[], -1, 0, false, false, some false⟩,
       [Ev.entryDestroyed 1, Ev.didRemoveEntry (some 1) 0,
        Ev.entryDestroyed 2, Ev.didRemoveEntry (some 2) 0,
        Ev.didChangeEntries [], Ev.didChangeSelectedEntry none, Ev.didDestroy], none⟩ := by
  have h := c6_destroy_spec Nat (fun _ => true)
    ⟨[1, 2], 0, 0, false, false, none⟩ rfl rfl rfl
  simpa [getSelectedEntry, jsGetElem] using h

/-- Witness for C9 (amended): an `add` performed while `emitting` is true
warns first and still inserts the entry. -/
theorem c9_amended_witness :
    (runOp (Op.add 5) (⟨[], -1, 0, false, true, none⟩ : SOSet Nat)).trace.head?
      = some Ev.warn ∧
    (addAt (⟨[], -1, 0, false, true, none⟩ : SOSet Nat) 5 0).error = none ∧
    (addAt (⟨[], -1, 0, false, true, none⟩ : SOSet Nat) 5 0).state.entries =
      jsSpliceInsert ([] : List Nat) 0 5 :=
  ⟨(c9_amended Nat).1 ⟨[], -1, 0, false, true, none⟩ (Op.add 5) rfl rfl,
   ((c9_amended Nat).2 ⟨[], -1, 0, false, true, none⟩ 5 0 rfl (by decide) (by decide)).1,
   ((c9_amended Nat).2 ⟨[], -1, 0, false, true, none⟩ 5 0 rfl (by decide) (by decide)).2⟩

/-- Witness for C10 (amended): the selected singleton `[7]`. -/
theorem c10_singleton_selected_noop_witness :
    selectNext (⟨[7], 0, 0, false, false, none⟩ : SOSet Nat) =
      ⟨⟨[7], 0, 0, false, false, none⟩, [], none⟩ ∧
    selectPrevious (⟨[7], 0, 0, false, false, none⟩ : SOSet Nat) =
      ⟨⟨[7], 0, 0, false, false, none⟩, [], none⟩ :=
  c10_singleton_selected_noop Nat ⟨[7], 0, 0, false, false, none⟩ rfl rfl rfl rfl

end SelSet
